import Mathlib

/-!
Verification of the LLM-Evaluator refinement loop (src/main.py, src/testing.py).

The script drives `iterations = 5` rounds; in each round it loops over the
configured questions, calls the generative model, writes the response to
`temp_ldd/ldd_j.c` and `ldd.c`, runs clang-tidy on `ldd.c`, counts warning and
error lines with regular expressions, and finally appends a score entry to
`scores.yaml`.

The embedding below models:
* Python exceptions as an explicit error type `PyErr` threaded through
  `Except` (the script has no active try/except, so exceptions propagate);
* machine text as Lean `String` / `List Char` (clang-tidy output is ASCII;
  Python's `\d` and `\s` are modelled by `Char.isDigit` / `Char.isWhitespace`);
* Python float division on small integer counts as exact `ℚ` arithmetic;
* the on-disk files (`temp_ldd/ldd_j.c`, `fixes/tidy_fixes_j.yaml`, `ldd.c`,
  `scores.yaml`) as fields of an explicit `RunState`;
* the two external collaborators (the genai model call and the clang-tidy
  subprocess) as an opaque `Oracle`: the generator is indexed by the
  (round, prompt) call site, the analyzer additionally receives the content
  of `ldd.c` that it reads.
-/

/-- Python exceptions that `main.py` can raise (none are caught: the
try/except at lines 94-95 of the source is commented out). -/
inductive PyErr where
  /-- An exception raised by the `client.models.generate_content` call. -/
  | apiError
  /-- An exception raised by the `subprocess.run` clang-tidy invocation. -/
  | analyzerError
  /-- `rtext.splitlines()[0]` on an empty response (`[]` indexed at 0). -/
  | indexError
  /-- `rtext.pop(0)` where `rtext` is a `str`: str has no attribute `pop`. -/
  | attributeError
  /-- `open(...)` on a missing `fixes/tidy_fixes_j.yaml` or `temp_ldd/ldd_j.c`. -/
  | fileNotFound
  /-- Integer/float division by zero at line 111 of `main.py`. -/
  | zeroDivisionError
deriving DecidableEq, Repr

/-- One record of the `scores.yaml` list, as built at lines 116-123 of
`main.py`.  `unsuccessfulCompilation` is the Python int `5 - compile_rate`
(which can be negative when more than five prompts compile), so it is `Int`. -/
structure Entry where
  iteration : Nat
  unsuccessfulCompilation : Int
  warnings : Nat
  compile_score : ℚ
  warninghandling_score : ℚ
  total_score : ℚ
deriving DecidableEq, Repr

/-- The mutable state of one run of `main.py`: the Python lists `warnings`,
`errors`, the counter `total_warning`, and the on-disk files.  `temp` is the
list of `temp_ldd/ldd_j.c` contents (index = prompt index `j`), `fixes` the
list of `fixes/tidy_fixes_j.yaml` contents as the string that
`str(yaml.safe_load(...))` interpolates, `ldd` the content of the shared
`ldd.c`, and `scores` the content of `scores.yaml`.  `requests` is an
observation log of the `contents` strings passed to `generate_content`. -/
structure RunState where
  warnings : List Nat
  errors : List Nat
  temp : List String
  fixes : List String
  ldd : String
  total_warning : Nat
  scores : List Entry
  requests : List String
deriving DecidableEq, Repr

/-- The two external collaborators, treated as opaque capabilities.
`gen i j` is the text of the model response at round `i`, prompt `j` (or the
exception the API call raises).  `tool i j src` is the clang-tidy invocation
at round `i`, prompt `j` on a `ldd.c` whose content is `src`; it returns the
combined stdout/stderr text (the script merges stderr into stdout with
`stderr=subprocess.STDOUT`) together with the content written to the
`-export-fixes` destination `fixes/tidy_fixes_j.yaml`. -/
structure Oracle where
  gen : Nat → Nat → Except PyErr String
  tool : Nat → Nat → String → Except PyErr (String × String)

/-! ### The regular-expression count (lines 85-86 of `main.py`)

`re.findall(r":\d+:\d+:\s+warning:", text)` scans the text left to right,
taking non-overlapping matches and continuing after each match.  For this
pattern the greedy quantifiers are deterministic: a digit run can only be
followed by `:` (not a digit) and the whitespace run by `w`/`e` (not
whitespace), so no backtracking is possible. -/

/-- Matches the regex fragment `:\d+`: a colon followed by at least one digit,
returning the remainder after the (greedy, hence maximal) digit run. -/
def needColonDigits (l : List Char) : Option (List Char) :=
  match l with
  | c :: r =>
    if c = ':' then
      if (r.takeWhile Char.isDigit).isEmpty then none
      else some (r.dropWhile Char.isDigit)
    else none
  | [] => none

/-- Matches one expected literal character. -/
def needChar (c : Char) (l : List Char) : Option (List Char) :=
  match l with
  | x :: r => if x = c then some r else none
  | [] => none

/-- Matches the regex fragment `\s+`: at least one whitespace character,
greedily (hence maximally) consumed. -/
def needSpaces (l : List Char) : Option (List Char) :=
  if (l.takeWhile Char.isWhitespace).isEmpty then none
  else some (l.dropWhile Char.isWhitespace)

/-- Matches the literal keyword `kw` as a prefix of the text. -/
def needKeyword (kw : List Char) (l : List Char) : Option (List Char) :=
  if kw.isPrefixOf l then some (l.drop kw.length) else none

/-- Matches the full regex `:\d+:\d+:\s+` followed by the literal keyword
`kw` (the source uses `kw = "warning:"` and `kw = "error:"`), returning
the remainder of the text after the match.  For this pattern the greedy
Python semantics never backtracks: each maximal run is forced by the
non-matching character that must follow it. -/
def matchPat (kw : List Char) (l : List Char) : Option (List Char) :=
  (needColonDigits l).bind fun r1 =>
    (needColonDigits r1).bind fun r2 =>
      (needChar ':' r2).bind fun r3 =>
        (needSpaces r3).bind fun r4 =>
          needKeyword kw r4

/-- Fuel-indexed scan implementing `len(re.findall(pattern, text))`:
at each position try to match; on success count one and continue after the
match, otherwise advance one character.  The fuel only serves structural
recursion; `l.length` fuel is always enough because every step consumes at
least one character. -/
def countPatAux (kw : List Char) : Nat → List Char → Nat
  | 0, _ => 0
  | fuel + 1, l =>
    match matchPat kw l with
    | some rest => 1 + countPatAux kw fuel rest
    | none =>
      match l with
      | [] => 0
      | _ :: t => countPatAux kw fuel t

/-- `len(re.findall(":\d+:\d+:\s+" ++ kw, text))` on `text = l`. -/
def countPat (kw : List Char) (l : List Char) : Nat :=
  countPatAux kw l.length l

/-- Line 85 of `main.py`: `len(re.findall(r":\d+:\d+:\s+warning:", text))`. -/
def warningCount (text : String) : Nat :=
  countPat "warning:".toList text.toList

/-- Line 86 of `main.py`: `len(re.findall(r":\d+:\d+:\s+error:", text))`. -/
def errorCount (text : String) : Nat :=
  countPat "error:".toList text.toList

/-! ### Response normalisation (lines 40-48 / 64-72 of `main.py`) -/

/-- Python `rtext.splitlines()[0]` for nonempty `rtext`: the characters up to
the first line terminator (modelled with `\n`). -/
def firstLineChars (l : List Char) : List Char :=
  l.takeWhile (fun c => !(c = '\n'))

/-- Python `str.strip()`: remove leading and trailing whitespace. -/
def stripChars (l : List Char) : List Char :=
  ((l.dropWhile Char.isWhitespace).reverse.dropWhile Char.isWhitespace).reverse

/-- Lines 41-48 of `main.py` (identically lines 65-72): take the first line
of the response (an `IndexError` if the response is empty, since
`"".splitlines()` is `[]`), and if its stripped form is the fence opener
met by the model output, execute `rtext.pop(0)` — which raises
`AttributeError` because `rtext` is a `str`, not a list.  Otherwise the
script only prints the diagnostic `NO ``c` and leaves the text unchanged. -/
def fence_check (rtext : String) : Except PyErr Unit :=
  if rtext.toList = [] then .error .indexError
  else if stripChars (firstLineChars rtext.toList) = "```c".toList then
    .error .attributeError
  else .ok ()

/-! ### Request construction (lines 38 and 62 of `main.py`) -/

/-- Line 38 of `main.py`: the round-0 request.  Note the source interpolates
`questions[0]` — the first configured question — for every prompt index `j`;
the prompt index does not occur in this expression at all.  (The call site
guarantees `questions` is nonempty, so `questions[0]` cannot raise.) -/
def round0_request (questions : List String) (style : String) : String :=
  (questions.headD "") ++
    " - only provide code and refer to " ++ style ++
    " for proper coding style and nothing else also make sure to remove \x27c ``` at starting and ``` in\x27 the end of the code and keep author name as Bhanu"

/-- The literal text of the fix-round request before the interpolated
`fix_code`. -/
def reqHead : String := "Given <br> "

/-- The literal text of the fix-round request between the interpolated
`fix_code` and the interpolated `fixes`. -/
def reqMid : String := " <br> ,these are the errors in it:"

/-- The literal text of the fix-round request after the interpolated
`fixes`. -/
def reqTail : String :=
  ", fix the code and only provide code and nothing else also keep in mind to remove c ``` at starting and ``` in the end of the code and keep author name as Bhanu"

/-- Line 62 of `main.py`: the fix-round request, interpolating the prior
artifact `fix_code` (read back from `temp_ldd/ldd_j.c`) and the serialized
findings `fixes` (loaded from `fixes/tidy_fixes_j.yaml`). -/
def fix_request (fix_code : String) (fixes : String) : String :=
  reqHead ++ (fix_code ++ (reqMid ++ (fixes ++ reqTail)))

/-! ### The per-(round, prompt) step (lines 36-92 of `main.py`) -/

/-- One iteration of the inner `for j` loop, at round `i`, prompt `j`.
Round 0: build the request from `questions[0]`, call the model, run the
fence check, write the response text (`response.text`, not the — never
produced — stripped text) to a fresh `temp_ldd/ldd_j.c` and to `ldd.c`,
run clang-tidy on `ldd.c`, and append the regex counts to the `warnings`
and `errors` lists.  Round ≥ 1: first read `fixes/tidy_fixes_j.yaml` and
`temp_ldd/ldd_j.c`, build the fix request from them, then proceed the same
way but overwrite index `j` of the lists and files.  Any exception
propagates: the `try/except` of the source is commented out. -/
def runStep (oracle : Oracle) (questions : List String) (style : String)
    (i j : Nat) (st : RunState) : Except PyErr RunState :=
  if i = 0 then
    match oracle.gen i j with
    | .error e => .error e
    | .ok response =>
      match fence_check response with
      | .error e => .error e
      | .ok _ =>
        match oracle.tool i j response with
        | .error e => .error e
        | .ok (text, fixExport) =>
          .ok { st with
            warnings := st.warnings ++ [warningCount text]
            errors := st.errors ++ [errorCount text]
            temp := st.temp ++ [response]
            fixes := st.fixes ++ [fixExport]
            ldd := response
            requests := st.requests ++ [round0_request questions style] }
  else
    match st.fixes.get? j with
    | none => .error .fileNotFound
    | some fixes_j =>
      match st.temp.get? j with
      | none => .error .fileNotFound
      | some fix_code =>
        match oracle.gen i j with
        | .error e => .error e
        | .ok response =>
          match fence_check response with
          | .error e => .error e
          | .ok _ =>
            match oracle.tool i j response with
            | .error e => .error e
            | .ok (text, fixExport) =>
              .ok { st with
                warnings := st.warnings.set j (warningCount text)
                errors := st.errors.set j (errorCount text)
                temp := st.temp.set j response
                fixes := st.fixes.set j fixExport
                ldd := response
                requests := st.requests ++ [fix_request fix_code fixes_j] }

/-- The inner `for j in range(len(questions))` loop over a list of prompt
indices, threading the state and propagating any exception. -/
def innerLoop (oracle : Oracle) (questions : List String) (style : String)
    (i : Nat) : List Nat → RunState → Except PyErr RunState
  | [], st => .ok st
  | j :: js, st =>
    match runStep oracle questions style i j st with
    | .error e => .error e
    | .ok st' => innerLoop oracle questions style i js st'

/-! ### Scoring (lines 97-134 of `main.py`) -/

/-- Lines 99-101 of `main.py`: `compile_rate`, the number of entries of the
`errors` list that are zero. -/
def compile_rate (errors : List Nat) : Nat :=
  (errors.filter (fun e => e == 0)).length

/-- Line 113 of `main.py`: `compile_score = compile_rate / 5`.  The
denominator is the literal `5`, not `len(questions)`. -/
def compile_score (errors : List Nat) : ℚ :=
  (compile_rate errors : ℚ) / 5

/-- Line 111 of `main.py`:
`warninghandling_score = (total_warning - current_warnings) / total_warning`.
There is no guard: in Python a zero `total_warning` raises
`ZeroDivisionError`, modelled as the error branch. -/
def warninghandling_score (total_warning current_warnings : Nat) : Except PyErr ℚ :=
  if total_warning = 0 then .error .zeroDivisionError
  else .ok (((total_warning : ℚ) - (current_warnings : ℚ)) / (total_warning : ℚ))

/-- Lines 102-105 of `main.py`: at round 0 the global `total_warning`
accumulates the sum of the round-0 `warnings` list; later rounds leave it
unchanged. -/
def total_warning_after (i : Nat) (st : RunState) : Nat :=
  if i = 0 then st.total_warning + st.warnings.sum else st.total_warning

/-- Lines 102-109 of `main.py`: `current_warnings` is `total_warning` at
round 0 and the sum of the current `warnings` list at later rounds. -/
def current_warnings (i : Nat) (st : RunState) : Nat :=
  if i = 0 then total_warning_after i st else st.warnings.sum

/-- Lines 116-123 of `main.py`: the score entry for round `i` (the file
records `iteration = i + 1`). -/
def mkEntry (i : Nat) (st : RunState) (whs : ℚ) : Entry :=
  { iteration := i + 1
    unsuccessfulCompilation := 5 - (compile_rate st.errors : Int)
    warnings := current_warnings i st
    compile_score := compile_score st.errors
    warninghandling_score := whs
    total_score := whs * 0.5 + compile_score st.errors * 0.5 }

/-- Lines 124-129 of `main.py`: read `scores.yaml` if it exists, else start
from the empty list (`yaml.safe_load` of an empty file yields `None`, turned
into `[]` by `or []`; both are modelled by `none`). -/
def loadScores (disk : Option (List Entry)) : List Entry :=
  match disk with
  | some l => l
  | none => []

/-- Line 131 of `main.py`: `data.append(entry)`. -/
def appendScore (scores : List Entry) (e : Entry) : List Entry :=
  scores ++ [e]

/-- Lines 97-134 of `main.py`: the per-round scoring and persistence that
runs after the inner prompt loop. -/
def scoreRound (i : Nat) (st : RunState) : Except PyErr RunState :=
  match warninghandling_score (total_warning_after i st) (current_warnings i st) with
  | .error e => .error e
  | .ok whs =>
    .ok { st with
      total_warning := total_warning_after i st
      scores := appendScore st.scores (mkEntry i st whs) }

/-- One full round: the inner prompt loop followed by scoring. -/
def runRound (oracle : Oracle) (questions : List String) (style : String)
    (i : Nat) (st : RunState) : Except PyErr RunState :=
  match innerLoop oracle questions style i (List.range questions.length) st with
  | .error e => .error e
  | .ok st' => scoreRound i st'

/-- The outer `for i` loop over a list of round indices. -/
def outerLoop (oracle : Oracle) (questions : List String) (style : String) :
    List Nat → RunState → Except PyErr RunState
  | [], st => .ok st
  | i :: is, st =>
    match runRound oracle questions style i st with
    | .error e => .error e
    | .ok st' => outerLoop oracle questions style is st'

/-- Line 12 of `main.py`: `iterations = 5`. -/
def iterations : Nat := 5

/-- Lines 13-14 and 30 of `main.py`: the initial program state; the
pre-existing `scores.yaml` content is the `disk` parameter. -/
def initState (disk : Option (List Entry)) : RunState :=
  { warnings := []
    errors := []
    temp := []
    fixes := []
    ldd := ""
    total_warning := 0
    scores := loadScores disk
    requests := [] }

/-- A whole run of `main.py`: all `iterations` rounds from the initial
state. -/
def runAll (oracle : Oracle) (questions : List String) (style : String)
    (disk : Option (List Entry)) : Except PyErr RunState :=
  outerLoop oracle questions style (List.range iterations) (initState disk)

/-! ### Declarative regex semantics

`DeclMatch kw l r` is the textbook reading of the pattern
`:\d+:\d+:\s+kw`: the text `l` decomposes as a colon, a nonempty digit
run, a colon, a nonempty digit run, a colon, a nonempty whitespace run,
the keyword, and the remainder `r`.  `OccCount kw l n` is the declarative
count of leftmost non-overlapping occurrences, the specification of
`len(re.findall(...))`. -/

/-- The decomposition a match of `:\d+:\d+:\s+kw` at the head of `l`
must have, leaving remainder `r`. -/
def DeclMatch (kw l r : List Char) : Prop :=
  ∃ d1 d2 ws : List Char,
    d1 ≠ [] ∧ (∀ c ∈ d1, c.isDigit = true) ∧
    d2 ≠ [] ∧ (∀ c ∈ d2, c.isDigit = true) ∧
    ws ≠ [] ∧ (∀ c ∈ ws, c.isWhitespace = true) ∧
    l = ':' :: (d1 ++ (':' :: (d2 ++ (':' :: (ws ++ (kw ++ r))))))

/-- Declarative count of leftmost, non-overlapping occurrences of the
pattern in a text: scan left to right, count a match and resume after it,
or move one character when no match starts here. -/
inductive OccCount (kw : List Char) : List Char → Nat → Prop where
  | nil : OccCount kw [] 0
  | found {l r : List Char} {n : Nat} :
      DeclMatch kw l r → OccCount kw r n → OccCount kw l (n + 1)
  | step {c : Char} {t : List Char} {n : Nat} :
      (∀ r, ¬ DeclMatch kw (c :: t) r) → OccCount kw t n → OccCount kw (c :: t) n

/-! ### Concrete fixtures used by witnesses and counterexamples -/

/-- An external world whose generator call always raises. -/
def failOracle : Oracle :=
  { gen := fun _ _ => .error .apiError
    tool := fun _ _ _ => .ok ("", "") }

/-- An external world with well-behaved calls and a clean analyzer report
(no warnings, no errors). -/
def cleanOracle : Oracle :=
  { gen := fun _ _ => .ok "int x;"
    tool := fun _ _ _ => .ok ("", "exportdoc") }

/-- An external world whose analyzer always reports exactly one warning. -/
def oneWarnOracle : Oracle :=
  { gen := fun _ _ => .ok "int x;"
    tool := fun _ _ _ => .ok ("ldd.c:1:5: warning: unused", "exportdoc") }

/-- An external world whose generator succeeds with an unfenced response but
whose analyzer invocation raises. -/
def toolFailOracle : Oracle :=
  { gen := fun _ _ => .ok "int x;"
    tool := fun _ _ _ => .error .analyzerError }

/-- An external world whose generator returns a fenced response. -/
def fencedOracle : Oracle :=
  { gen := fun _ _ => .ok "```c\nint main;\n```"
    tool := fun _ _ _ => .ok ("", "") }

/-- A state as left by a completed round 0 on one prompt: one recorded
warning, no errors, baseline 1. -/
def demoSt : RunState :=
  { warnings := [1]
    errors := [0]
    temp := ["int y;"]
    fixes := ["prior-findings"]
    ldd := "int y;"
    total_warning := 1
    scores := []
    requests := [] }

/-- The state `runStep oneWarnOracle ["q"] "s" 0 0 (initState none)`
produces: round 0 on a fresh state, one warning reported. -/
def demoStep0 : RunState :=
  { warnings := [1]
    errors := [0]
    temp := ["int x;"]
    fixes := ["exportdoc"]
    ldd := "int x;"
    total_warning := 0
    scores := []
    requests := [round0_request ["q"] "s"] }

/-- The state `runStep cleanOracle ["q"] "s" 1 0 demoSt` produces: a fix
round on `demoSt`, clean analyzer report. -/
def demoStepFix : RunState :=
  { warnings := [0]
    errors := [0]
    temp := ["int x;"]
    fixes := ["exportdoc"]
    ldd := "int x;"
    total_warning := 1
    scores := []
    requests := [fix_request "int y;" "prior-findings"] }

/-- The state `runRound cleanOracle ["q"] "s" 1 demoSt` produces (a fix
round on `demoSt` followed by its scoring), extracted from the run. -/
def demoSt1 : RunState :=
  match runRound cleanOracle ["q"] "s" 1 demoSt with
  | .ok s => s
  | .error _ => initState none

/-! ### Lemmas about the scanner -/

/-- Dropping a while-prefix never lengthens a list. -/
lemma dropWhile_length_le (p : Char → Bool) (l : List Char) :
    (l.dropWhile p).length ≤ l.length := by
  induction l with
  | nil => simp
  | cons a t ih =>
    rw [List.dropWhile_cons]
    split
    · exact Nat.le_trans ih (Nat.le_succ _)
    · exact Nat.le_refl _

/-- takeWhile stops exactly at the first failing element. -/
lemma takeWhile_append_cons (p : Char → Bool) {a : List Char}
    (ha : ∀ x ∈ a, p x = true) {c : Char} (hc : p c = false) (b : List Char) :
    (a ++ c :: b).takeWhile p = a := by
  induction a with
  | nil => simp [List.takeWhile_cons, hc]
  | cons x xs ih =>
    have hx : p x = true := ha x (by simp)
    simp only [List.cons_append, List.takeWhile_cons, hx, if_true]
    rw [ih (fun y hy => ha y (by simp [hy]))]

/-- dropWhile stops exactly at the first failing element. -/
lemma dropWhile_append_cons (p : Char → Bool) {a : List Char}
    (ha : ∀ x ∈ a, p x = true) {c : Char} (hc : p c = false) (b : List Char) :
    (a ++ c :: b).dropWhile p = c :: b := by
  induction a with
  | nil => simp [List.dropWhile_cons, hc]
  | cons x xs ih =>
    have hx : p x = true := ha x (by simp)
    simp only [List.cons_append, List.dropWhile_cons, hx, if_true]
    exact ih (fun y hy => ha y (by simp [hy]))

/-- A successful `:\d+` match strictly shortens the text. -/
lemma needColonDigits_length {l r : List Char} (h : needColonDigits l = some r) :
    r.length < l.length := by
  cases l with
  | nil => simp [needColonDigits] at h
  | cons a t =>
    simp only [needColonDigits] at h
    split at h
    · split at h
      · simp at h
      · cases h
        simp only [List.length_cons]
        exact Nat.lt_succ_of_le (dropWhile_length_le _ _)
    · simp at h

/-- What a successful `:\d+` match tells about the text. -/
lemma needColonDigits_sound {l r : List Char} (h : needColonDigits l = some r) :
    ∃ d : List Char, d ≠ [] ∧ (∀ c ∈ d, c.isDigit = true) ∧ l = ':' :: (d ++ r) := by
  cases l with
  | nil => simp [needColonDigits] at h
  | cons a t =>
    simp only [needColonDigits] at h
    split at h
    next ha =>
      split at h
      next hemp => simp at h
      next hne =>
        cases h
        subst ha
        refine ⟨t.takeWhile Char.isDigit, ?_, ?_, ?_⟩
        · simpa using hne
        · intro x hx
          simpa using List.mem_takeWhile_imp hx
        · rw [List.takeWhile_append_dropWhile]
    next => simp at h

/-- The `:\d+` matcher succeeds on any digit run followed by a non-digit. -/
lemma needColonDigits_complete {d : List Char} (hd : d ≠ [])
    (hdig : ∀ c ∈ d, c.isDigit = true) {c : Char} (hc : c.isDigit = false)
    (x : List Char) :
    needColonDigits (':' :: (d ++ c :: x)) = some (c :: x) := by
  simp only [needColonDigits, if_pos rfl]
  rw [takeWhile_append_cons Char.isDigit hdig hc,
      dropWhile_append_cons Char.isDigit hdig hc]
  simp [hd]

/-- A successful single-character match consumes exactly that character. -/
lemma needChar_sound {c : Char} {l r : List Char} (h : needChar c l = some r) :
    l = c :: r := by
  cases l with
  | nil => simp [needChar] at h
  | cons x t =>
    simp only [needChar] at h
    split at h
    next hx => cases h; rw [hx]
    next => simp at h

/-- The single-character matcher accepts its own character. -/
lemma needChar_self (c : Char) (r : List Char) : needChar c (c :: r) = some r := by
  simp [needChar]

/-- A successful single-character match strictly shortens the text. -/
lemma needChar_length {c : Char} {l r : List Char} (h : needChar c l = some r) :
    r.length < l.length := by
  rw [needChar_sound h]
  simp

/-- A successful `\s+` match never lengthens the text. -/
lemma needSpaces_length {l r : List Char} (h : needSpaces l = some r) :
    r.length ≤ l.length := by
  simp only [needSpaces] at h
  split at h
  · simp at h
  · cases h
    exact dropWhile_length_le _ _

/-- What a successful `\s+` match tells about the text. -/
lemma needSpaces_sound {l r : List Char} (h : needSpaces l = some r) :
    ∃ ws : List Char, ws ≠ [] ∧ (∀ c ∈ ws, c.isWhitespace = true) ∧ l = ws ++ r := by
  simp only [needSpaces] at h
  split at h
  next => simp at h
  next hne =>
    cases h
    refine ⟨l.takeWhile Char.isWhitespace, ?_, ?_, ?_⟩
    · simpa using hne
    · intro x hx
      simpa using List.mem_takeWhile_imp hx
    · rw [List.takeWhile_append_dropWhile]

/-- The `\s+` matcher succeeds on any whitespace run followed by a
non-whitespace character. -/
lemma needSpaces_complete {ws : List Char} (hws : ws ≠ [])
    (hw : ∀ c ∈ ws, c.isWhitespace = true) {c : Char} (hc : c.isWhitespace = false)
    (x : List Char) :
    needSpaces (ws ++ c :: x) = some (c :: x) := by
  unfold needSpaces
  rw [takeWhile_append_cons Char.isWhitespace hw hc,
      dropWhile_append_cons Char.isWhitespace hw hc]
  simp [hws]

/-- A successful keyword match consumes exactly the keyword. -/
lemma needKeyword_sound {kw l r : List Char} (h : needKeyword kw l = some r) :
    l = kw ++ r := by
  unfold needKeyword at h
  split at h
  next hp =>
    cases h
    obtain ⟨t, ht⟩ := List.isPrefixOf_iff_prefix.mp hp
    rw [← ht, List.drop_left]
  next => simp at h

/-- The keyword matcher accepts the keyword followed by anything. -/
lemma needKeyword_complete (kw r : List Char) : needKeyword kw (kw ++ r) = some r := by
  unfold needKeyword
  rw [if_pos (List.isPrefixOf_iff_prefix.mpr (List.prefix_append kw r)), List.drop_left]

/-- A successful keyword match never lengthens the text. -/
lemma needKeyword_length {kw l r : List Char} (h : needKeyword kw l = some r) :
    r.length ≤ l.length := by
  rw [needKeyword_sound h]
  simp

/-- A successful full-pattern match strictly shortens the text. -/
lemma matchPat_some_length {kw l r : List Char} (h : matchPat kw l = some r) :
    r.length < l.length := by
  unfold matchPat at h
  simp only [Option.bind_eq_some] at h
  obtain ⟨r1, h1, r2, h2, r3, h3, r4, h4, h5⟩ := h
  have e1 := needColonDigits_length h1
  have e2 := needColonDigits_length h2
  have e3 := needChar_length h3
  have e4 := needSpaces_length h4
  have e5 := needKeyword_length h5
  omega

/-- The pattern matcher never matches the empty text. -/
lemma matchPat_nil (kw : List Char) : matchPat kw [] = none := rfl

/-- Soundness: a successful match yields a genuine decomposition of the
text into the declarative pattern followed by the returned remainder. -/
lemma matchPat_sound {kw l r : List Char} (h : matchPat kw l = some r) :
    DeclMatch kw l r := by
  unfold matchPat at h
  simp only [Option.bind_eq_some] at h
  obtain ⟨r1, h1, r2, h2, r3, h3, r4, h4, h5⟩ := h
  obtain ⟨d1, hd1, hdig1, hl⟩ := needColonDigits_sound h1
  obtain ⟨d2, hd2, hdig2, hr1⟩ := needColonDigits_sound h2
  have hr2 : r2 = ':' :: r3 := needChar_sound h3
  obtain ⟨ws, hws, hwsp, hr3⟩ := needSpaces_sound h4
  have hr4 : r4 = kw ++ r := needKeyword_sound h5
  exact ⟨d1, d2, ws, hd1, hdig1, hd2, hdig2, hws, hwsp,
    by rw [hl, hr1, hr2, hr3, hr4]⟩

/-- Completeness: whenever the declarative pattern matches at the head of
the text, the greedy matcher succeeds with the same remainder (the keyword
must start with a non-whitespace character, as `warning:` and `error:` do). -/
lemma matchPat_complete {kw : List Char} {kc : Char} {kt : List Char}
    (hkw : kw = kc :: kt) (hkc : kc.isWhitespace = false)
    {l r : List Char} (h : DeclMatch kw l r) : matchPat kw l = some r := by
  obtain ⟨d1, d2, ws, hd1, hdig1, hd2, hdig2, hws, hwsp, rfl⟩ := h
  unfold matchPat
  rw [needColonDigits_complete hd1 hdig1 (by decide) _]
  simp only [Option.some_bind]
  rw [needColonDigits_complete hd2 hdig2 (by decide) _]
  simp only [Option.some_bind]
  rw [needChar_self]
  simp only [Option.some_bind]
  rw [show kw ++ r = kc :: (kt ++ r) from by rw [hkw]; rfl]
  rw [needSpaces_complete hws hwsp hkc]
  simp only [Option.some_bind]
  rw [show (kc :: (kt ++ r) : List Char) = kw ++ r from by rw [hkw]; rfl]
  exact needKeyword_complete kw r

/-- The fuel used by `countPat` is irrelevant as long as it covers the
length of the text. -/
lemma countPatAux_eq (kw : List Char) :
    ∀ (f : Nat) (l : List Char), l.length ≤ f → countPatAux kw f l = countPat kw l := by
  intro f
  induction f using Nat.strong_induction_on with
  | _ f ih =>
    intro l hl
    cases f with
    | zero =>
      obtain rfl : l = [] := List.length_eq_zero.mp (Nat.le_zero.mp hl)
      rfl
    | succ g =>
      cases hm : matchPat kw l with
      | some r =>
        have hlt := matchPat_some_length hm
        have e1 : countPatAux kw (g + 1) l = 1 + countPatAux kw g r := by
          simp only [countPatAux, hm]
        have e2 : countPatAux kw l.length l = 1 + countPatAux kw (l.length - 1) r := by
          cases l with
          | nil => simp [matchPat_nil] at hm
          | cons c t => simp only [List.length_cons, Nat.add_sub_cancel, countPatAux, hm]
        rw [countPat, e1, e2, ih g (Nat.lt_succ_self g) r (by omega),
          ih (l.length - 1) (by omega) r (by omega)]
      | none =>
        cases l with
        | nil =>
          simp only [countPat, countPatAux, hm]
        | cons c t =>
          have e1 : countPatAux kw (g + 1) (c :: t) = countPatAux kw g t := by
            simp only [countPatAux, hm]
          have e2 : countPatAux kw (c :: t).length (c :: t) = countPatAux kw t.length t := by
            simp only [List.length_cons, countPatAux, hm]
          rw [countPat, e1, e2, ih g (Nat.lt_succ_self g) t (by simpa using hl)]
          rfl

/-- `countPat` on the empty text. -/
lemma countPat_nil (kw : List Char) : countPat kw [] = 0 := rfl

/-- `countPat` counts one match and continues after it. -/
lemma countPat_pos {kw l r : List Char} (h : matchPat kw l = some r) :
    countPat kw l = 1 + countPat kw r := by
  have hlt := matchPat_some_length h
  cases l with
  | nil => simp [matchPat_nil] at h
  | cons c t =>
    have e : countPat kw (c :: t) = 1 + countPatAux kw t.length r := by
      simp only [countPat, List.length_cons, countPatAux, h]
    rw [e, countPatAux_eq kw t.length r (by simp only [List.length_cons] at hlt; omega)]

/-- `countPat` skips one character when no match starts at the head. -/
lemma countPat_neg {kw : List Char} {c : Char} {t : List Char}
    (h : matchPat kw (c :: t) = none) :
    countPat kw (c :: t) = countPat kw t := by
  simp only [countPat, List.length_cons, countPatAux, h]

/-- The implementation count is a declarative occurrence count. -/
lemma countPat_occCount {kw : List Char} {kc : Char} {kt : List Char}
    (hkw : kw = kc :: kt) (hkc : kc.isWhitespace = false) (l : List Char) :
    OccCount kw l (countPat kw l) := by
  suffices H : ∀ (N : Nat) (l : List Char), l.length ≤ N → OccCount kw l (countPat kw l) from
    H l.length l (Nat.le_refl _)
  intro N
  induction N with
  | zero =>
    intro l hl
    obtain rfl : l = [] := List.length_eq_zero.mp (Nat.le_zero.mp hl)
    exact OccCount.nil
  | succ N ihN =>
    intro l hl
    cases hm : matchPat kw l with
    | some r =>
      have hlt := matchPat_some_length hm
      rw [countPat_pos hm, Nat.add_comm]
      exact OccCount.found (matchPat_sound hm) (ihN r (by omega))
    | none =>
      cases l with
      | nil => exact OccCount.nil
      | cons c t =>
        rw [countPat_neg hm]
        refine OccCount.step (fun r hr => ?_) (ihN t (by simpa using hl))
        rw [matchPat_complete hkw hkc hr] at hm
        exact Option.noConfusion hm

/-- A declarative occurrence count is the implementation count. -/
lemma occCount_countPat {kw : List Char} {kc : Char} {kt : List Char}
    (hkw : kw = kc :: kt) (hkc : kc.isWhitespace = false)
    {l : List Char} {n : Nat} (h : OccCount kw l n) : countPat kw l = n := by
  induction h with
  | nil => exact countPat_nil kw
  | found hm _ ih =>
    rw [countPat_pos (matchPat_complete hkw hkc hm), ih, Nat.add_comm]
  | step hno _ ih =>
    rename_i c t n hrec
    have hm : matchPat kw (c :: t) = none := by
      cases hmm : matchPat kw (c :: t) with
      | none => rfl
      | some r => exact absurd (matchPat_sound hmm) (hno r)
    rw [countPat_neg hm, ih]

/-! ### Lemmas about the run -/

/-- Overwriting index `j` and reading it back yields the new value. -/
lemma get?_set_self {α : Type} {l : List α} {j : Nat} (hj : j < l.length) (a : α) :
    (l.set j a).get? j = some a := by
  induction l generalizing j with
  | nil => simp at hj
  | cons x t ih =>
    cases j with
    | zero => rfl
    | succ k => exact ih (by simpa using hj)

/-- What a successful per-(round, prompt) step consists of: the generator
response passed the fence check, both artifact files receive the response
text, the analyzer is invoked on it, and its regex counts are recorded —
appended at round 0, written at index `j` at later rounds.  The global
counter and score history are untouched by the step. -/
lemma runStep_ok {oracle : Oracle} {qs : List String} {style : String}
    {i j : Nat} {st st' : RunState}
    (h : runStep oracle qs style i j st = .ok st') :
    ∃ response text fixExport,
      oracle.gen i j = .ok response ∧
      fence_check response = .ok () ∧
      oracle.tool i j response = .ok (text, fixExport) ∧
      st'.ldd = response ∧
      st'.total_warning = st.total_warning ∧
      st'.scores = st.scores ∧
      ((i = 0 ∧
          st'.warnings = st.warnings ++ [warningCount text] ∧
          st'.errors = st.errors ++ [errorCount text] ∧
          st'.temp = st.temp ++ [response] ∧
          st'.fixes = st.fixes ++ [fixExport] ∧
          st'.requests = st.requests ++ [round0_request qs style]) ∨
        (¬ i = 0 ∧ ∃ fx fc,
          st.fixes.get? j = some fx ∧
          st.temp.get? j = some fc ∧
          st'.warnings = st.warnings.set j (warningCount text) ∧
          st'.errors = st.errors.set j (errorCount text) ∧
          st'.temp = st.temp.set j response ∧
          st'.fixes = st.fixes.set j fixExport ∧
          st'.requests = st.requests ++ [fix_request fc fx])) := by
  unfold runStep at h
  split at h
  next hi =>
    cases hg : oracle.gen i j with
    | error e => simp only [hg] at h; exact Except.noConfusion h
    | ok response =>
      simp only [hg] at h
      cases hf : fence_check response with
      | error e => simp only [hf] at h; exact Except.noConfusion h
      | ok u =>
        simp only [hf] at h
        cases ht : oracle.tool i j response with
        | error e => simp only [ht] at h; exact Except.noConfusion h
        | ok p =>
          obtain ⟨text, fixExport⟩ := p
          simp only [ht] at h
          cases h
          cases u
          exact ⟨response, text, fixExport, rfl, hf, ht, rfl, rfl, rfl,
            Or.inl ⟨hi, rfl, rfl, rfl, rfl, rfl⟩⟩
  next hi =>
    cases hfx : st.fixes.get? j with
    | none => simp only [hfx] at h; exact Except.noConfusion h
    | some fx =>
      simp only [hfx] at h
      cases hfc : st.temp.get? j with
      | none => simp only [hfc] at h; exact Except.noConfusion h
      | some fc =>
        simp only [hfc] at h
        cases hg : oracle.gen i j with
        | error e => simp only [hg] at h; exact Except.noConfusion h
        | ok response =>
          simp only [hg] at h
          cases hf : fence_check response with
          | error e => simp only [hf] at h; exact Except.noConfusion h
          | ok u =>
            simp only [hf] at h
            cases ht : oracle.tool i j response with
            | error e => simp only [ht] at h; exact Except.noConfusion h
            | ok p =>
              obtain ⟨text, fixExport⟩ := p
              simp only [ht] at h
              cases h
              cases u
              exact ⟨response, text, fixExport, rfl, hf, ht, rfl, rfl, rfl,
                Or.inr ⟨hi, fx, fc, rfl, rfl, rfl, rfl, rfl, rfl, rfl⟩⟩

/-- The inner prompt loop never touches the global warning baseline or the
persisted score history. -/
lemma innerLoop_frame {oracle : Oracle} {qs : List String} {style : String}
    {i : Nat} :
    ∀ {js : List Nat} {st st' : RunState},
      innerLoop oracle qs style i js st = .ok st' →
      st'.total_warning = st.total_warning ∧ st'.scores = st.scores := by
  intro js
  induction js with
  | nil =>
    intro st st' h
    cases h
    exact ⟨rfl, rfl⟩
  | cons j js ih =>
    intro st st' h
    unfold innerLoop at h
    cases hs : runStep oracle qs style i j st with
    | error e => simp only [hs] at h; exact Except.noConfusion h
    | ok mid =>
      simp only [hs] at h
      obtain ⟨_, _, _, _, _, _, _, htw, hsc, _⟩ := runStep_ok hs
      obtain ⟨htw', hsc'⟩ := ih h
      exact ⟨htw'.trans htw, hsc'.trans hsc⟩

/-- What a successful scoring phase consists of. -/
lemma scoreRound_ok {i : Nat} {st st' : RunState}
    (h : scoreRound i st = .ok st') :
    ∃ whs : ℚ,
      warninghandling_score (total_warning_after i st) (current_warnings i st) = .ok whs ∧
      st' = { st with
        total_warning := total_warning_after i st
        scores := appendScore st.scores (mkEntry i st whs) } := by
  unfold scoreRound at h
  cases hw : warninghandling_score (total_warning_after i st) (current_warnings i st) with
  | error e => simp only [hw] at h; exact Except.noConfusion h
  | ok whs =>
    simp only [hw] at h
    cases h
    exact ⟨whs, rfl, rfl⟩

/-- A successful round decomposes into the inner loop and the scoring. -/
lemma runRound_ok {oracle : Oracle} {qs : List String} {style : String}
    {i : Nat} {st st' : RunState}
    (h : runRound oracle qs style i st = .ok st') :
    ∃ mid : RunState,
      innerLoop oracle qs style i (List.range qs.length) st = .ok mid ∧
      scoreRound i mid = .ok st' := by
  unfold runRound at h
  cases hs : innerLoop oracle qs style i (List.range qs.length) st with
  | error e => simp only [hs] at h; exact Except.noConfusion h
  | ok mid =>
    simp only [hs] at h
    exact ⟨mid, rfl, h⟩


-- check fixture values
example : runStep oneWarnOracle ["q"] "s" 0 0 (initState none) = .ok demoStep0 := by rfl
example : runStep cleanOracle ["q"] "s" 1 0 demoSt = .ok demoStepFix := by rfl
example : runRound cleanOracle ["q"] "s" 1 demoSt = .ok demoSt1 := by rfl
example : runAll fencedOracle ["q"] "s" none = .error .attributeError := by rfl
example : compile_score [0] = 1/5 := by norm_num [compile_score, compile_rate]

/-! ### Claims -/

/-- Claim C1 (counterexample): the compile score divides by the literal 5,
not by the prompt count.  With one prompt that has zero errors the score is
1/5 instead of the claimed 1/1, and with six all-compiling prompts it is
6/5, outside [0,1]. -/
theorem compile_score_not_prompt_fraction :
    compile_score [0] = 1 / 5 ∧
    ¬ compile_score [0] = 1 ∧
    compile_score [0, 0, 0, 0, 0, 0] = 6 / 5 ∧
    ¬ compile_score [0, 0, 0, 0, 0, 0] ≤ 1 := by
  have h1 : compile_rate [0] = 1 := rfl
  have h2 : compile_rate [0, 0, 0, 0, 0, 0] = 6 := rfl
  refine ⟨?_, ?_, ?_, ?_⟩ <;> norm_num [compile_score, h1, h2]

/-- Claim C1 (amended): the compile score is the zero-error count divided by
the constant 5; when the configured prompt count — the length of the
per-prompt errors list — is exactly 5 this coincides with the claimed
fraction of zero-error prompts and lies in [0,1]. -/
theorem compile_score_is_count_div_five (errors : List Nat)
    (h5 : errors.length = 5) :
    compile_score errors = (compile_rate errors : ℚ) / (errors.length : ℚ) ∧
    0 ≤ compile_score errors ∧ compile_score errors ≤ 1 := by
  have hle : compile_rate errors ≤ 5 := by
    have h := List.length_filter_le (fun e => e == 0) errors
    rw [h5] at h
    exact h
  refine ⟨?_, ?_, ?_⟩
  · rw [h5]; norm_num [compile_score]
  · unfold compile_score; positivity
  · unfold compile_score
    rw [div_le_one (by norm_num)]
    exact_mod_cast hle

/-- Witness for the amended claim C1 at a concrete round with five prompts,
three of which have zero errors. -/
theorem compile_score_is_count_div_five_witness :
    compile_score [0, 1, 0, 2, 0] =
      (compile_rate [0, 1, 0, 2, 0] : ℚ) / (([0, 1, 0, 2, 0] : List Nat).length : ℚ) ∧
    0 ≤ compile_score [0, 1, 0, 2, 0] ∧ compile_score [0, 1, 0, 2, 0] ≤ 1 :=
  compile_score_is_count_div_five [0, 1, 0, 2, 0] (by decide)

/-- Claim C2 (counterexample): there is no guard — with a zero round-0
baseline the warning-handling computation raises ZeroDivisionError rather
than being defined as 0, and a full run in a world whose analyzer reports
no warnings aborts with that error at round 0's scoring. -/
theorem warninghandling_zero_baseline_raises :
    warninghandling_score 0 0 = .error .zeroDivisionError ∧
    ¬ warninghandling_score 0 0 = .ok 0 ∧
    runAll cleanOracle ["q"] "s" none = .error .zeroDivisionError := by
  refine ⟨rfl, by simp [warninghandling_score], rfl⟩

/-- Claim C2 (amended): when the baseline is nonzero the warning-handling
score is (baseline − current)/baseline; when the baseline is zero the
division raises ZeroDivisionError instead of being defined as 0. -/
theorem warninghandling_score_unguarded (b c : Nat) (hb : ¬ b = 0) :
    warninghandling_score b c = .ok (((b : ℚ) - (c : ℚ)) / (b : ℚ)) ∧
    warninghandling_score 0 c = .error .zeroDivisionError := by
  refine ⟨?_, rfl⟩
  unfold warninghandling_score
  rw [if_neg hb]

/-- Witness for the amended claim C2 at baseline 2, current total 1. -/
theorem warninghandling_score_unguarded_witness :
    warninghandling_score 2 1 = .ok ((((2 : Nat) : ℚ) - ((1 : Nat) : ℚ)) / ((2 : Nat) : ℚ)) ∧
    warninghandling_score 0 1 = .error .zeroDivisionError :=
  warninghandling_score_unguarded 2 1 (by decide)

/-- Claim C3 (code bug): a response whose first line is the fence opener
makes the script execute `rtext.pop(0)` on a `str`, raising AttributeError
and aborting the run, instead of stripping the fences; an unfenced response
passes with only a diagnostic, and the text persisted to both artifact
files is the raw response text. -/
theorem fenced_response_raises_attributeError :
    fence_check "```c\nint main;\n```" = .error .attributeError ∧
    runAll fencedOracle ["q"] "s" none = .error .attributeError ∧
    fence_check "int main;" = .ok () ∧
    Except.map (fun st => (st.ldd, st.temp))
        (runStep oneWarnOracle ["q"] "s" 0 0 (initState none)) =
      .ok ("int x;", ["int x;"]) :=
  ⟨rfl, rfl, rfl, rfl⟩

/-- Claim C4 (counterexample): a generator failure at the very first step
aborts the entire run with that exception — the run does not continue to
the next prompt, does not complete its rounds, and appends nothing. -/
theorem gen_failure_aborts_counterexample :
    runAll failOracle ["qa", "qb"] "sty" none = .error .apiError := rfl

/-- Claim C4 (amended): the `try/except` of the source is commented out, so
an exception from either external call propagates.  Both a generator
failure and an analyzer-invocation failure at round 0, prompt 0 make the
very first step raise, abort the prompt loop, abort the round before its
scoring executes — `scoreRound`, the only place a score entry is ever
appended, is never reached and the round yields no state at all — and
abort the whole run with that exception, for every nonempty prompt list
and every pre-existing score file. -/
theorem external_failure_aborts_run (oracle : Oracle) (qs : List String)
    (style : String) (disk : Option (List Entry)) (e : PyErr)
    (hq : ¬ qs = [])
    (hfail : oracle.gen 0 0 = .error e ∨
      (∃ r : String, oracle.gen 0 0 = .ok r ∧ fence_check r = .ok () ∧
        oracle.tool 0 0 r = .error e)) :
    runStep oracle qs style 0 0 (initState disk) = .error e ∧
    innerLoop oracle qs style 0 (List.range qs.length) (initState disk) = .error e ∧
    runRound oracle qs style 0 (initState disk) = .error e ∧
    Except.toOption (runRound oracle qs style 0 (initState disk)) = none ∧
    runAll oracle qs style disk = .error e := by
  obtain ⟨q, qt, rfl⟩ : ∃ q qt, qs = q :: qt := by
    cases qs with
    | nil => exact absurd rfl hq
    | cons q qt => exact ⟨q, qt, rfl⟩
  have hstep : runStep oracle (q :: qt) style 0 0 (initState disk) = .error e := by
    unfold runStep
    rw [if_pos rfl]
    cases hfail with
    | inl hg => rw [hg]
    | inr hr =>
      obtain ⟨r, hg, hfence, htool⟩ := hr
      simp only [hg, hfence, htool]
  have hinner : innerLoop oracle (q :: qt) style 0
      (List.range (q :: qt : List String).length) (initState disk) = .error e := by
    rw [List.length_cons, List.range_succ_eq_map]
    unfold innerLoop
    rw [hstep]
  have hround : runRound oracle (q :: qt) style 0 (initState disk) = .error e := by
    unfold runRound
    rw [hinner]
  have hall : runAll oracle (q :: qt) style disk = .error e := by
    show outerLoop oracle (q :: qt) style (List.range iterations) (initState disk) = .error e
    rw [show List.range iterations = 0 :: [1, 2, 3, 4] from rfl]
    unfold outerLoop
    rw [hround]
  exact ⟨hstep, hinner, hround, by rw [hround]; rfl, hall⟩

/-- Witness for the amended claim C4 in a world whose analyzer invocation
always raises (the generator failure side is exercised concretely by the
counterexample run). -/
theorem external_failure_aborts_run_witness :
    runStep toolFailOracle ["q"] "s" 0 0 (initState none) = .error .analyzerError ∧
    innerLoop toolFailOracle ["q"] "s" 0
      (List.range (["q"] : List String).length) (initState none) = .error .analyzerError ∧
    runRound toolFailOracle ["q"] "s" 0 (initState none) = .error .analyzerError ∧
    Except.toOption (runRound toolFailOracle ["q"] "s" 0 (initState none)) = none ∧
    runAll toolFailOracle ["q"] "s" none = .error .analyzerError :=
  external_failure_aborts_run toolFailOracle ["q"] "s" none .analyzerError (by decide)
    (Or.inr ⟨"int x;", rfl, rfl, rfl⟩)

/-- Claim C5 (code bug): the round-0 request interpolates `questions[0]`
for every prompt index — with two distinct configured questions both
prompts of round 0 receive the identical request, which also does not
change when every question but the first is replaced. -/
theorem round0_request_ignores_prompt_index :
    Except.map (fun st => st.requests)
        (runRound oneWarnOracle ["QAAA", "QBBB"] "sty" 0 (initState none)) =
      .ok [round0_request ["QAAA", "QBBB"] "sty",
           round0_request ["QAAA", "QBBB"] "sty"] ∧
    round0_request ["QAAA", "QBBB"] "sty" = round0_request ["QAAA", "QCCC"] "sty" :=
  ⟨rfl, rfl⟩

/-- Claim C6: at every round i ≥ 1 the request sent for prompt j is built
from that prompt's prior artifact (`temp_ldd/ldd_j.c`) and prior findings
(`fixes/tidy_fixes_j.yaml`), and contains the artifact text and the
findings serialization literally, each between fixed literal pieces of the
request. -/
theorem fix_request_contains_artifact_and_findings
    (oracle : Oracle) (qs : List String) (style : String) (i j : Nat)
    (st st' : RunState) (artifact findings : String)
    (hi : ¬ i = 0)
    (ha : st.temp.get? j = some artifact)
    (hf : st.fixes.get? j = some findings)
    (h : runStep oracle qs style i j st = .ok st') :
    st'.requests = st.requests ++ [fix_request artifact findings] ∧
    fix_request artifact findings =
      reqHead ++ artifact ++ (reqMid ++ (findings ++ reqTail)) ∧
    fix_request artifact findings =
      (reqHead ++ artifact ++ reqMid) ++ findings ++ reqTail := by
  obtain ⟨response, text, fixExport, _, _, _, _, _, _, hcase⟩ := runStep_ok h
  cases hcase with
  | inl hl => exact absurd hl.1 hi
  | inr hr =>
    obtain ⟨_, fx, fc, hfx, hfc, _, _, _, _, hreq⟩ := hr
    rw [hfc] at ha
    rw [hfx] at hf
    have h1 : fc = artifact := by injection ha
    have h2 : fx = findings := by injection hf
    subst h1
    subst h2
    refine ⟨hreq, ?_, ?_⟩
    · simp [fix_request, String.append_assoc]
    · simp [fix_request, String.append_assoc]

/-- Witness for claim C6 at a concrete fix-round step. -/
theorem fix_request_contains_artifact_and_findings_witness :
    demoStepFix.requests = demoSt.requests ++ [fix_request "int y;" "prior-findings"] ∧
    fix_request "int y;" "prior-findings" =
      reqHead ++ "int y;" ++ (reqMid ++ ("prior-findings" ++ reqTail)) ∧
    fix_request "int y;" "prior-findings" =
      (reqHead ++ "int y;" ++ reqMid) ++ "prior-findings" ++ reqTail :=
  fix_request_contains_artifact_and_findings cleanOracle ["q"] "s" 1 0 demoSt
    demoStepFix "int y;" "prior-findings" (by decide) rfl rfl rfl

/-- Claim C7: for every analyzer output text the recorded warning count is
exactly the number of leftmost non-overlapping occurrences of the
`:line:col: warning:` pattern in the text, and the recorded error count
that of the `:line:col: error:` pattern — the counts are determined by the
pattern occurrences alone, independent of anything else (such as summary
totals) the tool prints. -/
theorem recorded_counts_are_occurrence_counts (text : String) (n m : Nat) :
    (warningCount text = n ↔ OccCount "warning:".toList text.toList n) ∧
    (errorCount text = m ↔ OccCount "error:".toList text.toList m) := by
  constructor
  · constructor
    · rintro rfl
      exact countPat_occCount rfl (by decide) text.toList
    · intro h
      exact occCount_countPat rfl (by decide) h
  · constructor
    · rintro rfl
      exact countPat_occCount rfl (by decide) text.toList
    · intro h
      exact occCount_countPat rfl (by decide) h

/-- Claim C8: the baseline is fixed at round 0 — a successful round 0 sets
`total_warning` to its prior value (0 at program start) plus the sum of the
round-0 warnings list, and every successful later round leaves
`total_warning` unchanged and divides by exactly that baseline (which a
successful round proves nonzero) in the warning-handling score of the entry
it appends. -/
theorem baseline_fixed_denominator
    (oracle : Oracle) (qs : List String) (style : String) (i : Nat)
    (st st' : RunState) (h : runRound oracle qs style i st = .ok st') :
    (i = 0 → st'.total_warning = st.total_warning + st'.warnings.sum) ∧
    (¬ i = 0 → st'.total_warning = st.total_warning ∧
      ¬ st.total_warning = 0 ∧
      Option.map Entry.warninghandling_score st'.scores.getLast? =
        some (((st.total_warning : ℚ) - (st'.warnings.sum : ℚ)) / (st.total_warning : ℚ))) := by
  obtain ⟨mid, hinner, hscore⟩ := runRound_ok h
  obtain ⟨htw, hsc⟩ := innerLoop_frame hinner
  obtain ⟨whs, hw, rfl⟩ := scoreRound_ok hscore
  constructor
  · intro hi
    subst hi
    show total_warning_after 0 mid = st.total_warning + mid.warnings.sum
    unfold total_warning_after
    rw [if_pos rfl, htw]
  · intro hi
    have e1 : total_warning_after i mid = mid.total_warning := by
      unfold total_warning_after
      rw [if_neg hi]
    have e2 : current_warnings i mid = mid.warnings.sum := by
      unfold current_warnings
      rw [if_neg hi]
    rw [e1, e2] at hw
    unfold warninghandling_score at hw
    refine ⟨?_, ?_, ?_⟩
    · show total_warning_after i mid = st.total_warning
      rw [e1, htw]
    · intro h0
      rw [← htw] at h0
      rw [if_pos h0] at hw
      exact Except.noConfusion hw
    · by_cases h0 : mid.total_warning = 0
      · rw [if_pos h0] at hw
        exact absurd hw (by simp)
      · rw [if_neg h0] at hw
        have hwhs : whs = ((mid.total_warning : ℚ) - (mid.warnings.sum : ℚ)) / (mid.total_warning : ℚ) := by
          injection hw with h'
          exact h'.symm
        show Option.map Entry.warninghandling_score
            (appendScore mid.scores (mkEntry i mid whs)).getLast? =
          some (((st.total_warning : ℚ) - (mid.warnings.sum : ℚ)) / (st.total_warning : ℚ))
        unfold appendScore
        rw [List.getLast?_concat]
        show some (mkEntry i mid whs).warninghandling_score =
          some (((st.total_warning : ℚ) - (mid.warnings.sum : ℚ)) / (st.total_warning : ℚ))
        rw [show (mkEntry i mid whs).warninghandling_score = whs from rfl, hwhs, htw]

/-- Witness for claim C8 at a concrete round 1. -/
theorem baseline_fixed_denominator_witness :
    (1 = 0 → demoSt1.total_warning = demoSt.total_warning + demoSt1.warnings.sum) ∧
    (¬ 1 = 0 → demoSt1.total_warning = demoSt.total_warning ∧
      ¬ demoSt.total_warning = 0 ∧
      Option.map Entry.warninghandling_score demoSt1.scores.getLast? =
        some (((demoSt.total_warning : ℚ) - (demoSt1.warnings.sum : ℚ)) / (demoSt.total_warning : ℚ))) :=
  baseline_fixed_denominator cleanOracle ["q"] "s" 1 demoSt demoSt1 rfl

/-- Claim C9: a successful round appends exactly one entry to the score
history, preserving every previously persisted entry unchanged and in
order; reading starts from the existing file content or, when there is no
file, from the empty list. -/
theorem scores_append_only
    (oracle : Oracle) (qs : List String) (style : String) (i : Nat)
    (st st' : RunState) (h : runRound oracle qs style i st = .ok st') :
    st'.scores.length = st.scores.length + 1 ∧
    st'.scores.take st.scores.length = st.scores ∧
    loadScores none = [] ∧
    loadScores (some st.scores) = st.scores ∧
    (initState (some st.scores)).scores = st.scores := by
  obtain ⟨mid, hinner, hscore⟩ := runRound_ok h
  obtain ⟨htw, hsc⟩ := innerLoop_frame hinner
  obtain ⟨whs, hw, rfl⟩ := scoreRound_ok hscore
  have hs : appendScore mid.scores (mkEntry i mid whs) = st.scores ++ [mkEntry i mid whs] := by
    rw [appendScore, hsc]
  refine ⟨?_, ?_, rfl, rfl, rfl⟩
  · show (appendScore mid.scores (mkEntry i mid whs)).length = st.scores.length + 1
    rw [hs]
    simp
  · show (appendScore mid.scores (mkEntry i mid whs)).take st.scores.length = st.scores
    rw [hs, List.take_left]

/-- Witness for claim C9 at a concrete round 1. -/
theorem scores_append_only_witness :
    demoSt1.scores.length = demoSt.scores.length + 1 ∧
    demoSt1.scores.take demoSt.scores.length = demoSt.scores ∧
    loadScores none = [] ∧
    loadScores (some demoSt.scores) = demoSt.scores ∧
    (initState (some demoSt.scores)).scores = demoSt.scores :=
  scores_append_only cleanOracle ["q"] "s" 1 demoSt demoSt1 rfl

/-- Claim C10: in every successful step the per-prompt artifact file
`temp_ldd/ldd_j.c` and the shared `ldd.c` are written with the identical
response text before the analyzer runs, the analyzer is invoked on exactly
that text, and the counts it yields are what the step records for prompt
`j`. -/
theorem artifact_files_agree_before_analysis
    (oracle : Oracle) (qs : List String) (style : String) (i j : Nat)
    (st st' : RunState) (response text fixExport : String)
    (hg : oracle.gen i j = .ok response)
    (htool : oracle.tool i j response = .ok (text, fixExport))
    (hj0 : i = 0 → j = st.temp.length)
    (hj1 : ¬ i = 0 → j < st.temp.length)
    (h : runStep oracle qs style i j st = .ok st') :
    st'.temp.get? j = some response ∧
    st'.ldd = response ∧
    (i = 0 → st'.warnings = st.warnings ++ [warningCount text] ∧
             st'.errors = st.errors ++ [errorCount text]) ∧
    (¬ i = 0 → st'.warnings = st.warnings.set j (warningCount text) ∧
               st'.errors = st.errors.set j (errorCount text)) := by
  obtain ⟨r, t, f, hg', hf', ht', hldd, _, _, hcase⟩ := runStep_ok h
  have hr : r = response := by
    rw [hg'] at hg
    injection hg
  subst hr
  rw [ht'] at htool
  have htf : t = text ∧ f = fixExport := by
    have hp : (t, f) = (text, fixExport) := by injection htool
    exact ⟨congrArg Prod.fst hp, congrArg Prod.snd hp⟩
  obtain ⟨rfl, rfl⟩ := htf
  cases hcase with
  | inl hl =>
    obtain ⟨hi, hw, he, htemp, _, _⟩ := hl
    refine ⟨?_, hldd, fun _ => ⟨hw, he⟩, fun hni => absurd hi hni⟩
    rw [htemp, hj0 hi, List.get?_eq_getElem?]
    exact List.getElem?_concat_length st.temp r
  | inr hr' =>
    obtain ⟨hi, fx, fc, _, _, hw, he, htemp, _, _⟩ := hr'
    refine ⟨?_, hldd, fun h0 => absurd h0 hi, fun _ => ⟨hw, he⟩⟩
    rw [htemp]
    exact get?_set_self (hj1 hi) r

/-- Witness for claim C10 at a concrete round-0 step. -/
theorem artifact_files_agree_before_analysis_witness :
    demoStep0.temp.get? 0 = some "int x;" ∧
    demoStep0.ldd = "int x;" ∧
    (0 = 0 → demoStep0.warnings = (initState none).warnings ++ [warningCount "ldd.c:1:5: warning: unused"] ∧
             demoStep0.errors = (initState none).errors ++ [errorCount "ldd.c:1:5: warning: unused"]) ∧
    (¬ 0 = 0 → demoStep0.warnings = (initState none).warnings.set 0 (warningCount "ldd.c:1:5: warning: unused") ∧
               demoStep0.errors = (initState none).errors.set 0 (errorCount "ldd.c:1:5: warning: unused")) :=
  artifact_files_agree_before_analysis oneWarnOracle ["q"] "s" 0 0 (initState none)
    demoStep0 "int x;" "ldd.c:1:5: warning: unused" "exportdoc" rfl rfl (by decide)
    (by decide) rfl
